import Mathlib

/-!
# Verification of doctave's navigation module (`src/navigation.rs`)

A shallow embedding of the navigation subsystem:

* `Doctave.Link.path_to_uri` — canonical URI computation (`Link::path_to_uri`);
* `Doctave.buildLinks` — the default link-tree builder
  (`impl From<&Directory> for Vec<Link>`);
* `Doctave.Navigation.customize` / `Doctave.Navigation.find_matching_link` —
  rule-driven reshaping of the default tree.  The Rust code panics
  (`.expect("Could not find matching doc for rule")`) when a rule matches no
  candidate; the panic is modelled as the `Except.error` case carrying the
  panic message, so an aborted run yields no partial link list.

Modelling conventions:

* Host paths are lists of normal components (`List String`).
  `PathBuf::set_extension("")` on the final component follows Rust's
  `file_stem` semantics: split the file name at its last `.`, except that a
  name whose only `.` is its leading character has no extension.
* `Directory`/`Document` live in the crate outside `src/navigation.rs`; they
  are modelled from the spec (§3): a `Document` has a display title and a
  destination path, a `Directory` has ordered documents, ordered child
  directories and a designated index document.  `Directory` and the rule
  types use hand-rolled mutual list types (`DirList`, `NavRuleList`) so that
  all recursive functions are structural and compute by `rfl`.
* The natural-title comparator is delegated by the Rust code to the external
  `alphanumeric_sort` crate and is modelled from the spec (§4.2), except
  that non-digit characters compare case-sensitively as required by the
  module's own `sorting_alphanumerically` unit test: maximal digit runs
  compare by numeric value, non-digit runs by character code, digit runs
  before non-digit runs at the same position.  Rust's stable `sort_by` is
  modelled by the stable `List.insertionSort`.
-/

namespace Doctave

/-! ## Paths and `Link::path_to_uri` -/

/-- Scan a reversed file name: drop the characters up to and including the
first `'.'` (in reading order: the extension and its dot), returning `none`
when the name contains no dot at all. -/
def dropExtRev : List Char → Option (List Char)
  | [] => none
  | c :: cs => if c = '.' then some cs else dropExtRev cs

/-- Rust `Path::file_stem` on a single normal component: the portion of the
name before the final `.`; the whole name when there is no `.`, or when the
only `.` is the leading character (hidden-file rule).  Rust's
`set_extension("")` replaces the file name by this stem. -/
def file_stem (s : String) : String :=
  match dropExtRev s.data.reverse with
  | none => s
  | some rest => if rest = [] then s else String.mk rest.reverse

/-- Rust `PathBuf::set_extension("")` on a component list: rewrite the final
component to its stem; a path without a `file_name` is untouched. -/
def setExtEmpty : List String → List String
  | [] => []
  | [c] => [file_stem c]
  | c :: cs => c :: setExtEmpty cs

/-- `Link` (`struct Link` in `navigation.rs`): canonical URI, display title,
ordered children. -/
structure Link where
  path : String
  title : String
  children : List Link

/-- `Link::path_to_uri`: strip the final component's extension, drop the
final component when it is then literally `index`, join the remaining
components with `/` and prefix a single leading `/`. -/
def Link.path_to_uri (path : List String) : String :=
  let tmp := setExtEmpty path
  let tmp := if tmp.getLast? = some "index" then tmp.dropLast else tmp
  "/" ++ String.intercalate "/" tmp

/-! ## The natural-title comparator

Modelled from the spec: `navigation.rs` delegates title comparison to the
external `alphanumeric_sort::compare_str`.  The spec (§4.2) fixes the
behaviour as: maximal contiguous digit runs compare by numeric value,
non-digit runs compare character by character, run by run from the start;
digit runs sort before non-digit runs at the same position, and a string
that runs out first sorts first.  The spec's §4.2 further says non-digit
runs compare case-insensitively, but the module's own unit test
`sorting_alphanumerically` requires `"Index" < "bb"` (uppercase before
lowercase), so non-digit characters compare by character code,
case-sensitively; the case-insensitive reading is kept separately below as
`titleLeCI` for comparison against the spec's words. -/

/-- Decimal value of a digit run. -/
def digitsVal (cs : List Char) : Nat := cs.foldl (fun n c => 10 * n + (c.toNat - 48)) 0

/-- A maximal run of a title: a digit run or a non-digit run. -/
inductive RawTok where
  | num (ds : List Char)
  | str (s : List Char)

/-- Group a character list into maximal digit / non-digit runs. -/
def rawTokenize : List Char → List RawTok
  | [] => []
  | c :: cs =>
    let ts := rawTokenize cs
    if c.isDigit then
      match ts with
      | .num ds :: rest => .num (c :: ds) :: rest
      | _ => .num [c] :: ts
    else
      match ts with
      | .str s :: rest => .str (c :: s) :: rest
      | _ => .str [c] :: ts

/-- Comparison key of a single run: digit runs (`Sum.inl`, by numeric value)
order before non-digit runs (`Sum.inr`, by character code). -/
abbrev NatToken := Lex (Nat ⊕ List Char)

/-- Key of one run. -/
def tokVal : RawTok → NatToken
  | .num ds => toLex (Sum.inl (digitsVal ds))
  | .str s => toLex (Sum.inr s)

/-- Comparison key of a title: its runs' keys, compared lexicographically. -/
def titleKey (s : String) : List NatToken := (rawTokenize s.data).map tokVal

/-- The natural-title comparator, as a total preorder on titles. -/
def titleLe (a b : String) : Prop := titleKey a ≤ titleKey b

instance : DecidableRel titleLe := fun a b =>
  inferInstanceAs (Decidable (titleKey a ≤ titleKey b))

/-- Key of one run under the spec's literal §4.2 wording (non-digit runs
case-insensitive): as `tokVal` but with characters lowercased. -/
def tokValCI : RawTok → NatToken
  | .num ds => toLex (Sum.inl (digitsVal ds))
  | .str s => toLex (Sum.inr (s.map Char.toLower))

/-- Title key under the spec's literal case-insensitive wording. -/
def titleKeyCI (s : String) : List NatToken := (rawTokenize s.data).map tokValCI

/-- The comparator exactly as the spec's §4.2 words it (case-insensitive
non-digit runs); the code's behaviour deviates from it. -/
def titleLeCI (a b : String) : Prop := titleKeyCI a ≤ titleKeyCI b

instance : DecidableRel titleLeCI := fun a b =>
  inferInstanceAs (Decidable (titleKeyCI a ≤ titleKeyCI b))

/-- Title comparison lifted to links, the relation `sort_by` sorts with. -/
def linkLe (a b : Link) : Prop := titleLe a.title b.title

instance : DecidableRel linkLe := fun a b =>
  inferInstanceAs (Decidable (titleKey a.title ≤ titleKey b.title))

instance : IsTotal Link linkLe :=
  ⟨fun a b => le_total (titleKey a.title) (titleKey b.title)⟩

instance : IsTrans Link linkLe :=
  ⟨fun _ _ _ h₁ h₂ => le_trans h₁ h₂⟩

/-! ## `Directory` and the default builder

Modelled from the spec (§3): a `Document` exposes a display title and a
destination path (the rendered page's path, carrying its page-file
extension, e.g. `one.md ↦ one.html` and `README.md ↦ index.html`); a
`Directory` exposes ordered documents, ordered child directories, and its
designated index document. -/

/-- A document: display title and destination (`html_path`) components. -/
structure Document where
  title : String
  html_path : List String

mutual
/-- A directory tree node (external input). -/
inductive Directory where
  | mk (docs : List Document) (dirs : DirList) (index : Document)
/-- The ordered child directories (a hand-rolled list so that recursion over
the tree is structural). -/
inductive DirList where
  | nil
  | cons (d : Directory) (ds : DirList)
end

def Directory.docs : Directory → List Document
  | .mk docs _ _ => docs

def Directory.dirs : Directory → DirList
  | .mk _ dirs _ => dirs

def Directory.index : Directory → Document
  | .mk _ _ index => index

def DirList.toList : DirList → List Directory
  | .nil => []
  | .cons d ds => d :: DirList.toList ds

/-- The candidate link of one document: title, resolved URI, no children. -/
def docLink (d : Document) : Link :=
  { path := Link.path_to_uri d.html_path, title := d.title, children := [] }

mutual
/-- `impl From<&Directory> for Vec<Link>`: one link per document except the
index document (matched by resolved URI), one link per child directory
(titled and addressed by its index document, children built recursively),
documents first, then the stable natural-title sort. -/
def buildLinks : Directory → List Link
  | .mk docs dirs index =>
    List.insertionSort linkLe
      (((docs.map docLink).filter
          fun l => l.path != Link.path_to_uri index.html_path)
        ++ childLinks dirs)

/-- The candidate links of the child directories, in order. -/
def childLinks : DirList → List Link
  | .nil => []
  | .cons d ds =>
    Link.mk (Link.path_to_uri d.index.html_path) d.index.title (buildLinks d)
      :: childLinks ds
end

/-- The link representing a directory in its parent's scope. -/
def dirLink (d : Directory) : Link :=
  Link.mk (Link.path_to_uri d.index.html_path) d.index.title (buildLinks d)

/-! ## Navigation rules and `customize`

`NavRule` comes from the crate's config module (outside `src/navigation.rs`)
and is modelled from the spec (§3): `File(path)` or `Dir(path, includeRule?)`
where the include rule is omitted, `WildCard`, or `Explicit(nested rules)`.
`DirRule` below flattens Rust's `Option<DirIncludeRule>`:
`none ↦ None`, `wildCard ↦ Some(WildCard)`,
`explicit ↦ Some(Explicit(..))` — exactly the three arms matched in
`Navigation::customize`. -/

mutual
/-- A navigation rule. -/
inductive NavRule where
  | File (path : List String)
  | Dir (path : List String) (rule : DirRule)
/-- The optional include rule of a `Dir` rule. -/
inductive DirRule where
  | none
  | wildCard
  | explicit (rules : NavRuleList)
/-- An ordered rule list (hand-rolled for structural recursion). -/
inductive NavRuleList where
  | nil
  | cons (r : NavRule) (rs : NavRuleList)
end

/-- The path of a rule. -/
def NavRule.path : NavRule → List String
  | .File p => p
  | .Dir p _ => p

def NavRuleList.toList : NavRuleList → List NavRule
  | .nil => []
  | .cons r rs => r :: NavRuleList.toList rs

namespace Navigation

/-- `Navigation::find_matching_link`: the first candidate whose `path`
equals the rule path's resolved URI after dropping the rule path's leading
documentation-root component; the Rust `.expect` panic on no match is the
`Except.error` carrying the panic message. -/
def find_matching_link (path : List String) (links : List Link) :
    Except String Link :=
  match links.find? (fun link => link.path == Link.path_to_uri (path.drop 1)) with
  | some link => .ok link
  | Option.none => .error "Could not find matching doc for rule"

mutual
/-- `Navigation::customize`: one output link per rule, in rule order; any
unmatched rule aborts the whole run (no partial list). -/
def customize : NavRuleList → List Link → Except String (List Link)
  | .nil, _ => .ok []
  | .cons r rs, defaults => do
    let link ← customizeRule r defaults
    let links ← customize rs defaults
    pure (link :: links)

/-- The body of `Navigation::customize`'s `for` loop for a single rule.
The Rust code locates the match once and then inspects the include rule;
the include-rule `match` is hoisted over the locate step here (they are
independent), giving one equation per rule shape. -/
def customizeRule : NavRule → List Link → Except String Link
  | .File path, defaults => find_matching_link path defaults
  | .Dir path .none, defaults => do
    let index_link ← find_matching_link path defaults
    pure { index_link with children := [] }
  | .Dir path .wildCard, defaults => do
    let index_link ← find_matching_link path defaults
    pure index_link
  | .Dir path (.explicit nested), defaults => do
    let index_link ← find_matching_link path defaults
    let children ← customize nested index_link.children
    pure { index_link with children := children }
end

/-- `Navigation::build_for`: the default tree when no rule list is
configured, otherwise the customized tree. -/
def build_for (nav : Option NavRuleList) (dir : Directory) :
    Except String (List Link) :=
  match nav with
  | Option.none => .ok (buildLinks dir)
  | some rules => customize rules (buildLinks dir)

end Navigation

/-! ## Derived definitions and concrete fixtures -/

/-- The pre-sort candidate list of a directory: document links (the index
document excluded by URI), then child-directory links — the list
`buildLinks` sorts. -/
def candidateList (dir : Directory) : List Link :=
  ((dir.docs.map docLink).filter
      fun l => l.path != Link.path_to_uri dir.index.html_path)
    ++ childLinks dir.dirs

/-- A link list is natural-title sorted at every level of the tree. -/
inductive AllSorted : List Link → Prop where
  | intro (ls : List Link) (hp : ls.Pairwise linkLe)
      (hc : ∀ l ∈ ls, AllSorted l.children) : AllSorted ls

/-- The claimed (spec-worded, case-insensitive) sortedness of one level. -/
def PairwiseCI (ls : List Link) : Prop :=
  ls.Pairwise fun a b => titleLeCI a.title b.title

instance (ls : List Link) : Decidable (PairwiseCI ls) :=
  inferInstanceAs (Decidable (ls.Pairwise _))

/-! Concrete fixtures, mirroring the directory tree of the module's own
`basic` / `manual_menu_simple` unit tests, used by the witnesses. -/

def readme : Document := ⟨"Getting Started", ["index.html"]⟩

def childReadme : Document := ⟨"Nested Root", ["child", "index.html"]⟩

def childDir : Directory :=
  .mk [childReadme, ⟨"Three", ["child", "three.html"]⟩] .nil childReadme

def testRoot : Directory :=
  .mk [readme, ⟨"One", ["one.html"]⟩, ⟨"Two", ["two.html"]⟩]
    (.cons childDir .nil) readme

/-- The default top-level links of `testRoot` (equal to `buildLinks testRoot`). -/
def defaults0 : List Link :=
  [⟨"/child", "Nested Root", [⟨"/child/three", "Three", []⟩]⟩,
   ⟨"/one", "One", []⟩,
   ⟨"/two", "Two", []⟩]

/-- A directory whose top level mixes the titles `Index` and `bb`
(as in the module's `sorting_alphanumerically` test). -/
def ciRoot : Directory :=
  .mk [readme, ⟨"bb", ["001.html"]⟩]
    (.cons (.mk [⟨"Index", ["child", "index.html"]⟩] .nil
      ⟨"Index", ["child", "index.html"]⟩) .nil)
    readme

/-- A directory with an equal-titled document and child directory, for the
stable-sort tie-break witness. -/
def tieRoot : Directory :=
  .mk [readme, ⟨"Same", ["a.html"]⟩]
    (.cons (.mk [⟨"Same", ["c", "index.html"]⟩] .nil
      ⟨"Same", ["c", "index.html"]⟩) .nil)
    readme

/-! ## Helper lemmas on `customize` -/

namespace Navigation

theorem exceptBind_ok {α β : Type} (a : α) (f : α → Except String β) :
    (Except.ok a >>= f) = f a := rfl

theorem exceptBind_error {α β : Type} (e : String) (f : α → Except String β) :
    ((Except.error e : Except String α) >>= f) = Except.error e := rfl

/-- The panic message of `Navigation::find_matching_link`. -/
def panicMsg : String := "Could not find matching doc for rule"

theorem find_matching_link_ok {path : List String} {links : List Link} {link : Link}
    (h : find_matching_link path links = .ok link) :
    link ∈ links ∧ link.path = Link.path_to_uri (path.drop 1) := by
  unfold find_matching_link at h
  cases hf : links.find? (fun l => l.path == Link.path_to_uri (path.drop 1)) with
  | none => rw [hf] at h; cases h
  | some l =>
    rw [hf] at h
    cases h
    exact ⟨List.mem_of_find?_eq_some hf, by simpa using List.find?_some hf⟩

theorem find_matching_link_error {path : List String} {links : List Link} {e : String}
    (h : find_matching_link path links = .error e) : e = panicMsg := by
  unfold find_matching_link at h
  cases hf : links.find? (fun l => l.path == Link.path_to_uri (path.drop 1)) with
  | none => rw [hf] at h; cases h; rfl
  | some l => rw [hf] at h; cases h

theorem find_matching_link_none {path : List String} {links : List Link}
    (h : ∀ l ∈ links, l.path ≠ Link.path_to_uri (path.drop 1)) :
    find_matching_link path links = .error panicMsg := by
  unfold find_matching_link
  rw [List.find?_eq_none.mpr (fun l hl => by simpa using h l hl)]
  rfl

mutual

/-- Every error produced by `customize` carries the fixed panic message. -/
theorem customize_error_eq :
    ∀ (rules : NavRuleList) (defaults : List Link) (e : String),
      customize rules defaults = .error e → e = panicMsg
  | .nil, _, _, h => by simp [customize] at h
  | .cons r rs, defaults, e, h => by
    rw [customize] at h
    cases hr : customizeRule r defaults with
    | error e1 =>
      rw [hr, exceptBind_error] at h
      cases h
      exact customizeRule_error_eq r defaults _ hr
    | ok l =>
      rw [hr, exceptBind_ok] at h
      cases hc : customize rs defaults with
      | error e2 =>
        rw [hc, exceptBind_error] at h
        cases h
        exact customize_error_eq rs defaults _ hc
      | ok ls => rw [hc, exceptBind_ok] at h; cases h

/-- Every error produced by `customizeRule` carries the fixed panic message. -/
theorem customizeRule_error_eq :
    ∀ (r : NavRule) (defaults : List Link) (e : String),
      customizeRule r defaults = .error e → e = panicMsg
  | .File path, defaults, e, h => by
    rw [customizeRule] at h
    exact find_matching_link_error h
  | .Dir path .none, defaults, e, h => by
    rw [customizeRule] at h
    cases hf : find_matching_link path defaults with
    | error e1 =>
      rw [hf, exceptBind_error] at h
      cases h
      exact find_matching_link_error hf
    | ok m => rw [hf, exceptBind_ok] at h; cases h
  | .Dir path .wildCard, defaults, e, h => by
    rw [customizeRule] at h
    cases hf : find_matching_link path defaults with
    | error e1 =>
      rw [hf, exceptBind_error] at h
      cases h
      exact find_matching_link_error hf
    | ok m => rw [hf, exceptBind_ok] at h; cases h
  | .Dir path (.explicit nested), defaults, e, h => by
    rw [customizeRule] at h
    cases hf : find_matching_link path defaults with
    | error e1 =>
      rw [hf, exceptBind_error] at h
      cases h
      exact find_matching_link_error hf
    | ok m =>
      rw [hf, exceptBind_ok] at h
      cases hc : customize nested m.children with
      | error e2 =>
        rw [hc, exceptBind_error] at h
        cases h
        exact customize_error_eq nested m.children _ hc
      | ok cs => rw [hc, exceptBind_ok] at h; cases h

end

/-- On success, `customize` yields one link per rule: same length, and the
`i`-th output link is `customizeRule` of the `i`-th rule. -/
theorem customize_ok_get :
    ∀ (rules : NavRuleList) (defaults out : List Link),
      customize rules defaults = .ok out →
      out.length = rules.toList.length ∧
      ∀ (i : Nat) (r : NavRule), rules.toList[i]? = some r →
        ∃ l, out[i]? = some l ∧ customizeRule r defaults = .ok l
  | .nil, defaults, out, h => by
    rw [customize] at h
    cases h
    exact ⟨rfl, by simp [NavRuleList.toList]⟩
  | .cons r0 rs, defaults, out, h => by
    rw [customize] at h
    cases hr : customizeRule r0 defaults with
    | error e1 => rw [hr, exceptBind_error] at h; cases h
    | ok l0 =>
      rw [hr, exceptBind_ok] at h
      cases hc : customize rs defaults with
      | error e2 => rw [hc, exceptBind_error] at h; cases h
      | ok ls =>
        rw [hc, exceptBind_ok] at h
        cases h
        obtain ⟨hlen, hget⟩ := customize_ok_get rs defaults ls hc
        refine ⟨by simpa [NavRuleList.toList] using hlen, ?_⟩
        intro i r hi
        cases i with
        | zero =>
          simp only [NavRuleList.toList, List.getElem?_cons_zero, Option.some.injEq] at hi
          exact ⟨l0, by simp, hi ▸ hr⟩
        | succ j =>
          simp only [NavRuleList.toList, List.getElem?_cons_succ] at hi
          obtain ⟨l, hl, hcr⟩ := hget j r hi
          exact ⟨l, by simpa using hl, hcr⟩

/-- On success, every output link comes from some rule. -/
theorem customize_ok_mem :
    ∀ (rules : NavRuleList) (defaults out : List Link),
      customize rules defaults = .ok out →
      ∀ l ∈ out, ∃ r, r ∈ rules.toList ∧ customizeRule r defaults = .ok l
  | .nil, defaults, out, h => by
    rw [customize] at h
    cases h
    simp
  | .cons r0 rs, defaults, out, h => by
    rw [customize] at h
    cases hr : customizeRule r0 defaults with
    | error e1 => rw [hr, exceptBind_error] at h; cases h
    | ok l0 =>
      rw [hr, exceptBind_ok] at h
      cases hc : customize rs defaults with
      | error e2 => rw [hc, exceptBind_error] at h; cases h
      | ok ls =>
        rw [hc, exceptBind_ok] at h
        cases h
        intro l hl
        cases hl with
        | head => exact ⟨r0, by simp [NavRuleList.toList], hr⟩
        | tail _ hmem =>
          obtain ⟨r, hrmem, hcr⟩ := customize_ok_mem rs defaults ls hc l hmem
          exact ⟨r, by simp [NavRuleList.toList, hrmem], hcr⟩

/-- Every successful `customizeRule` output is a clone of the matched
candidate: same path and title, with children kept, emptied, or themselves
customized from the candidate's children. -/
theorem customizeRule_ok_shape :
    ∀ (r : NavRule) (defaults : List Link) (link : Link),
      customizeRule r defaults = .ok link →
      ∃ m, find_matching_link (NavRule.path r) defaults = .ok m ∧
        link.path = m.path ∧ link.title = m.title ∧
        (link.children = m.children ∨ link.children = [] ∨
          ∃ nested, customize nested m.children = .ok link.children)
  | .File path, defaults, link, h => by
    rw [customizeRule] at h
    exact ⟨link, h, rfl, rfl, Or.inl rfl⟩
  | .Dir path .none, defaults, link, h => by
    rw [customizeRule] at h
    cases hf : find_matching_link path defaults with
    | error e1 => rw [hf, exceptBind_error] at h; cases h
    | ok m =>
      rw [hf, exceptBind_ok] at h
      cases h
      exact ⟨m, hf, rfl, rfl, Or.inr (Or.inl rfl)⟩
  | .Dir path .wildCard, defaults, link, h => by
    rw [customizeRule] at h
    cases hf : find_matching_link path defaults with
    | error e1 => rw [hf, exceptBind_error] at h; cases h
    | ok m =>
      rw [hf, exceptBind_ok] at h
      cases h
      exact ⟨_, hf, rfl, rfl, Or.inl rfl⟩
  | .Dir path (.explicit nested), defaults, link, h => by
    rw [customizeRule] at h
    cases hf : find_matching_link path defaults with
    | error e1 => rw [hf, exceptBind_error] at h; cases h
    | ok m =>
      rw [hf, exceptBind_ok] at h
      cases hc : customize nested m.children with
      | error e2 => rw [hc, exceptBind_error] at h; cases h
      | ok cs =>
        rw [hc, exceptBind_ok] at h
        cases h
        exact ⟨m, hf, rfl, rfl, Or.inr (Or.inr ⟨nested, hc⟩)⟩

/-- An unmatched rule makes `customizeRule` fail. -/
theorem customizeRule_error_of_find {r : NavRule} {defaults : List Link} {e : String}
    (hf : find_matching_link (NavRule.path r) defaults = .error e) :
    ∃ e2, customizeRule r defaults = .error e2 := by
  cases r with
  | File path => exact ⟨e, by rw [customizeRule]; exact hf⟩
  | Dir path rule =>
    rw [NavRule.path] at hf
    cases rule with
    | none => exact ⟨e, by rw [customizeRule, hf, exceptBind_error]⟩
    | wildCard => exact ⟨e, by rw [customizeRule, hf, exceptBind_error]⟩
    | explicit nested => exact ⟨e, by rw [customizeRule, hf, exceptBind_error]⟩

/-- If any rule of the list fails, the whole `customize` run fails. -/
theorem customize_error_of_rule :
    ∀ (rules : NavRuleList) (defaults : List Link) (r : NavRule),
      r ∈ rules.toList → (∃ e2, customizeRule r defaults = .error e2) →
      ∃ e, customize rules defaults = .error e
  | .nil, _, r, hr, _ => by simp [NavRuleList.toList] at hr
  | .cons r0 rs, defaults, r, hr, hfail => by
    rw [customize]
    cases hcr : customizeRule r0 defaults with
    | error e1 => exact ⟨e1, by rw [exceptBind_error]⟩
    | ok l0 =>
      rw [exceptBind_ok]
      rcases List.mem_cons.mp (by simpa [NavRuleList.toList] using hr) with heq | hmem
      · obtain ⟨e2, he2⟩ := hfail
        rw [heq] at he2
        rw [he2] at hcr
        cases hcr
      · obtain ⟨e, he⟩ := customize_error_of_rule rs defaults r hmem hfail
        exact ⟨e, by rw [he, exceptBind_error]⟩

end Navigation

/-! ## Helper lemmas on `file_stem` and `path_to_uri` -/

theorem dropExtRev_of_not_mem : ∀ {l : List Char}, '.' ∉ l → dropExtRev l = none
  | [], _ => rfl
  | c :: cs, h => by
    rw [dropExtRev, if_neg (fun hc => h (by rw [hc]; exact List.mem_cons_self _ _))]
    exact dropExtRev_of_not_mem (fun hm => h (List.mem_cons_of_mem c hm))

theorem dropExtRev_append : ∀ {l : List Char} (r : List Char), '.' ∉ l →
    dropExtRev (l ++ '.' :: r) = some r
  | [], r, _ => by rw [List.nil_append, dropExtRev, if_pos rfl]
  | c :: cs, r, h => by
    rw [List.cons_append, dropExtRev,
      if_neg (fun hc => h (by rw [hc]; exact List.mem_cons_self _ _))]
    exact dropExtRev_append r (fun hm => h (List.mem_cons_of_mem c hm))

theorem file_stem_of_no_dot {s : String} (h : '.' ∉ s.data) : file_stem s = s := by
  unfold file_stem
  rw [dropExtRev_of_not_mem (by simpa using h)]

theorem file_stem_concat {c e : String} (hc : c ≠ "") (he : '.' ∉ e.data) :
    file_stem (c ++ "." ++ e) = c := by
  have hdata : (c ++ "." ++ e).data.reverse = e.data.reverse ++ '.' :: c.data.reverse := by
    rw [String.data_append, String.data_append]
    show (c.data ++ ['.'] ++ e.data).reverse = _
    rw [List.reverse_append, List.reverse_append]
    simp
  unfold file_stem
  rw [hdata, dropExtRev_append _ (by simpa using he)]
  show (if c.data.reverse = [] then c ++ "." ++ e
    else String.mk c.data.reverse.reverse) = c
  rw [if_neg (by simpa using fun h2 => hc (String.ext (by simpa using h2)))]
  rw [List.reverse_reverse]

theorem setExtEmpty_concat : ∀ (cs : List String) (x : String),
    setExtEmpty (cs ++ [x]) = cs ++ [file_stem x]
  | [], _ => rfl
  | [_], _ => rfl
  | c :: c2 :: cs, x => by
    rw [List.cons_append, List.cons_append, setExtEmpty]
    rw [← List.cons_append, setExtEmpty_concat (c2 :: cs) x]
    rfl
    simp

theorem path_to_uri_concat {cs : List String} {c e : String}
    (hc : c ≠ "") (he : '.' ∉ e.data) (hidx : c ≠ "index") :
    Link.path_to_uri (cs ++ [c ++ "." ++ e]) =
      "/" ++ String.intercalate "/" (cs ++ [c]) := by
  simp only [Link.path_to_uri]
  rw [setExtEmpty_concat, file_stem_concat hc he, List.getLast?_concat,
    if_neg (by simpa using hidx)]

theorem path_to_uri_concat_index {cs : List String} {e : String} (he : '.' ∉ e.data) :
    Link.path_to_uri (cs ++ ["index" ++ "." ++ e]) =
      "/" ++ String.intercalate "/" cs := by
  simp only [Link.path_to_uri]
  rw [setExtEmpty_concat, file_stem_concat (by decide) he, List.getLast?_concat,
    if_pos rfl, List.dropLast_concat]

/-! ## Helper lemmas on the default builder -/

theorem buildLinks_eq (dir : Directory) :
    buildLinks dir = List.insertionSort linkLe (candidateList dir) := by
  cases dir
  rfl

theorem childLinks_eq_map : ∀ ds : DirList, childLinks ds = ds.toList.map dirLink
  | .nil => rfl
  | .cons d ds => by
    rw [childLinks, DirList.toList, List.map_cons, childLinks_eq_map ds]
    rfl

theorem mem_buildLinks {dir : Directory} {l : Link} :
    l ∈ buildLinks dir ↔ l ∈ candidateList dir := by
  rw [buildLinks_eq]
  exact List.mem_insertionSort linkLe

theorem pairwise_buildLinks (dir : Directory) : (buildLinks dir).Pairwise linkLe := by
  rw [buildLinks_eq]
  exact List.sorted_insertionSort linkLe _

theorem allSorted_nil : AllSorted [] := ⟨[], List.Pairwise.nil, by simp⟩

mutual

theorem allSorted_buildLinks : ∀ dir : Directory, AllSorted (buildLinks dir)
  | .mk docs dirs index => by
    refine ⟨_, pairwise_buildLinks _, ?_⟩
    intro l hl
    rcases List.mem_append.mp (mem_buildLinks.mp hl) with hdoc | hdir
    · obtain ⟨d, _, rfl⟩ := List.mem_map.mp (List.mem_of_mem_filter hdoc)
      exact allSorted_nil
    · exact allSorted_childLinks dirs l hdir

theorem allSorted_childLinks :
    ∀ ds : DirList, ∀ l ∈ childLinks ds, AllSorted l.children
  | .cons d ds, l, hl => by
    rw [childLinks] at hl
    rcases List.mem_cons.mp hl with rfl | hmem
    · exact allSorted_buildLinks d
    · exact allSorted_childLinks ds l hmem

end

/-! ## Helper lemmas on the comparator -/

theorem rawTokenize_digit (c : Char) (cs : List Char) (h : c.isDigit = true) :
    ∃ ds rest, rawTokenize (c :: cs) = .num ds :: rest := by
  cases hts : rawTokenize cs with
  | nil => exact ⟨[c], [], by simp [rawTokenize, h, hts]⟩
  | cons t ts =>
    cases t with
    | num ds => exact ⟨c :: ds, ts, by simp [rawTokenize, h, hts]⟩
    | str s => exact ⟨[c], .str s :: ts, by simp [rawTokenize, h, hts]⟩

theorem rawTokenize_nondigit (c : Char) (cs : List Char) (h : c.isDigit = false) :
    ∃ s rest, rawTokenize (c :: cs) = .str s :: rest := by
  cases hts : rawTokenize cs with
  | nil => exact ⟨[c], [], by simp [rawTokenize, h, hts]⟩
  | cons t ts =>
    cases t with
    | num ds => exact ⟨[c], .num ds :: ts, by simp [rawTokenize, h, hts]⟩
    | str s => exact ⟨c :: s, ts, by simp [rawTokenize, h, hts]⟩

/-- A digit-leading title is strictly below a non-digit-leading title. -/
theorem titleKey_lt_of_digit_head {s t : String} {c d : Char}
    (hs : s.data.head? = some c) (hcd : c.isDigit = true)
    (ht : t.data.head? = some d) (hdd : d.isDigit = false) :
    titleKey s < titleKey t := by
  obtain ⟨cs, hsd⟩ : ∃ cs, s.data = c :: cs := by
    cases hd : s.data with
    | nil => rw [hd] at hs; cases hs
    | cons x xs => rw [hd] at hs; cases hs; exact ⟨xs, rfl⟩
  obtain ⟨ds2, hts⟩ : ∃ ds2, t.data = d :: ds2 := by
    cases hd : t.data with
    | nil => rw [hd] at ht; cases ht
    | cons x xs => rw [hd] at ht; cases ht; exact ⟨xs, rfl⟩
  obtain ⟨ds, rest, hnum⟩ := rawTokenize_digit c cs hcd
  obtain ⟨s2, rest2, hstr⟩ := rawTokenize_nondigit d ds2 hdd
  rw [titleKey, titleKey, hsd, hts, hnum, hstr, List.map_cons, List.map_cons]
  exact List.Lex.rel (Sum.Lex.inl_lt_inr _ _)

/-! ## The claims -/

/-- C1 (counterexample): the claim says an unmatched rule aborts the build
with an identifiable error naming the offending rule path.  The abort does
happen, but the error is the fixed string
`"Could not find matching doc for rule"`: two runs whose offending rule
paths differ produce byte-identical errors, so the error cannot name the
offending path. -/
theorem c1_counterexample :
    Navigation.customize (.cons (.File ["docs", "a.md"]) .nil) [] =
      .error "Could not find matching doc for rule" ∧
    Navigation.customize (.cons (.File ["docs", "b.md"]) .nil) [] =
      .error "Could not find matching doc for rule" ∧
    (["docs", "a.md"] : List String) ≠ ["docs", "b.md"] :=
  ⟨rfl, rfl, by decide⟩

/-- C1 (amended): if some rule's path has no candidate whose canonical URI
equals the rule path's resolved URI (leading documentation-root segment
dropped), `customize` aborts the whole navigation build — it returns the
error and no partial Link list — but the error is the fixed panic message
`"Could not find matching doc for rule"`, which does not name the offending
rule path; every error `customize` ever returns is that fixed message. -/
theorem c1_unmatched_rule_aborts (rules : NavRuleList) (defaults : List Link) :
    (∀ e, Navigation.customize rules defaults = .error e →
      e = "Could not find matching doc for rule") ∧
    (∀ r ∈ rules.toList,
      (∀ l ∈ defaults, l.path ≠ Link.path_to_uri ((NavRule.path r).drop 1)) →
      Navigation.customize rules defaults =
        .error "Could not find matching doc for rule") := by
  constructor
  · exact fun e h => Navigation.customize_error_eq rules defaults e h
  · intro r hr hno
    obtain ⟨e2, he2⟩ := Navigation.customizeRule_error_of_find
      (Navigation.find_matching_link_none hno)
    obtain ⟨e, he⟩ :=
      Navigation.customize_error_of_rule rules defaults r hr ⟨e2, he2⟩
    have hmsg := Navigation.customize_error_eq rules defaults e he
    rw [hmsg] at he
    exact he

/-- C1 (witness): a concrete unmatched rule over the default links of the
test tree aborts with the fixed message. -/
theorem c1_unmatched_rule_aborts_witness :
    Navigation.customize (.cons (.File ["docs", "missing.md"]) .nil) defaults0 =
      .error "Could not find matching doc for rule" :=
  (c1_unmatched_rule_aborts (.cons (.File ["docs", "missing.md"]) .nil)
      defaults0).2
    (.File ["docs", "missing.md"]) (List.Mem.head _) (by decide)

/-- C2 (counterexample): `path_to_uri` maps `child/README.md` to
`/child/README`, not `/child` — the `README ↦ index` renaming happens in
`Document::html_path`, outside this function; only a final component that
is literally `index` after extension-stripping is dropped. -/
theorem c2_counterexample :
    Link.path_to_uri ["child", "README.md"] = "/child/README" ∧
    Link.path_to_uri ["child", "README.md"] ≠ "/child" :=
  ⟨rfl, by decide⟩

/-- C2 (amended): `path_to_uri` maps `one.md` to `/one`, the empty path to
`/`, and the destination path `child/index.html` (which is what
`child/README.md` renders to) to `/child`; in general it strips the final
component's extension (split at the last dot), drops that component exactly
when the stripped component is literally `index`, joins the remaining
components with `/` and prefixes a single leading `/`. -/
theorem c2_path_to_uri :
    Link.path_to_uri ["one.md"] = "/one" ∧
    Link.path_to_uri [] = "/" ∧
    Link.path_to_uri ["child", "index.html"] = "/child" ∧
    (∀ (cs : List String) (c e : String), c ≠ "" → '.' ∉ e.data → c ≠ "index" →
      Link.path_to_uri (cs ++ [c ++ "." ++ e]) =
        "/" ++ String.intercalate "/" (cs ++ [c])) ∧
    (∀ (cs : List String) (e : String), '.' ∉ e.data →
      Link.path_to_uri (cs ++ ["index" ++ "." ++ e]) =
        "/" ++ String.intercalate "/" cs) :=
  ⟨rfl, rfl, rfl,
   fun _ _ _ hc he hidx => path_to_uri_concat hc he hidx,
   fun _ _ he => path_to_uri_concat_index he⟩

/-- C2 (witness): the general clauses at concrete components. -/
theorem c2_path_to_uri_witness :
    Link.path_to_uri (["child"] ++ ["three" ++ "." ++ "md"]) =
      "/" ++ String.intercalate "/" ["child", "three"] ∧
    Link.path_to_uri (["child"] ++ ["index" ++ "." ++ "html"]) =
      "/" ++ String.intercalate "/" ["child"] :=
  ⟨c2_path_to_uri.2.2.2.1 ["child"] "three" "md" (by decide) (by decide)
      (by decide),
   c2_path_to_uri.2.2.2.2 ["child"] "html" (by decide)⟩

/-- C3 (counterexample): the claim says every level is sorted by a
comparator whose non-digit runs compare case-insensitively.  The builder
places the directory link titled `Index` before the document titled `bb`
(as the module's own `sorting_alphanumerically` test requires), yet
case-insensitively `index > bb`, so the produced level is not sorted under
the claimed case-insensitive comparator. -/
theorem c3_counterexample :
    buildLinks ciRoot =
      [⟨"/child", "Index", []⟩, ⟨"/001", "bb", []⟩] ∧
    ¬ PairwiseCI (buildLinks ciRoot) :=
  ⟨rfl, by decide⟩

/-- C3 (amended): for every `Directory`, the default link list is, at every
level of the tree, sorted by the natural-title comparator in which maximal
digit runs compare by numeric value (so `"2" < "11"`) and maximal non-digit
runs compare case-SENSITIVELY by character code; digit-leading titles
precede titles whose first character is not a digit (in particular
letter-leading titles). -/
theorem c3_default_sorted :
    (∀ dir : Directory, AllSorted (buildLinks dir)) ∧
    (titleLe "2" "11" ∧ ¬ titleLe "11" "2") ∧
    (∀ (s t : String) (c d : Char), s.data.head? = some c → c.isDigit = true →
      t.data.head? = some d → d.isDigit = false →
      titleLe s t ∧ ¬ titleLe t s) := by
  refine ⟨allSorted_buildLinks, ⟨by decide, by decide⟩, ?_⟩
  intro s t c d hs hc ht hd
  have hlt := titleKey_lt_of_digit_head hs hc ht hd
  exact ⟨le_of_lt hlt, not_le.mpr hlt⟩

/-- C3 (witness): a digit-leading title precedes a letter-leading title. -/
theorem c3_default_sorted_witness :
    titleLe "11" "bb" ∧ ¬ titleLe "bb" "11" :=
  c3_default_sorted.2.2 "11" "bb" '1' 'b' rfl (by decide) rfl (by decide)

/-- C4: a directory's own index document never appears as a sibling entry in
its own default listing — any link there carrying the index document's URI
is a child-directory representative, not a document entry; the index
document instead heads the link representing the directory in its parent's
listing (whose children are the directory's listing), and — when the
parent's document URIs avoid the index URI and exactly one child directory
carries it — that representative occurs exactly once in the parent's
listing. -/
theorem c4_index_representation (D P : Directory) :
    (∀ l ∈ buildLinks D, l.path = Link.path_to_uri D.index.html_path →
      ∃ C ∈ D.dirs.toList, l = dirLink C) ∧
    (D ∈ P.dirs.toList → dirLink D ∈ buildLinks P) ∧
    ((∀ d ∈ P.docs,
        Link.path_to_uri d.html_path ≠ Link.path_to_uri D.index.html_path) →
      (P.dirs.toList.countP fun C =>
        Link.path_to_uri C.index.html_path ==
          Link.path_to_uri D.index.html_path) = 1 →
      ((buildLinks P).countP fun l =>
        l.path == Link.path_to_uri D.index.html_path) = 1) := by
  refine ⟨?_, ?_, ?_⟩
  · intro l hl hpath
    rcases List.mem_append.mp (mem_buildLinks.mp hl) with hdoc | hdir
    · have hne := List.of_mem_filter hdoc
      rw [bne_iff_ne] at hne
      exact absurd hpath hne
    · rw [childLinks_eq_map] at hdir
      obtain ⟨C, hC, rfl⟩ := List.mem_map.mp hdir
      exact ⟨C, hC, rfl⟩
  · intro hD
    refine mem_buildLinks.mpr (List.mem_append_right _ ?_)
    rw [childLinks_eq_map]
    exact List.mem_map_of_mem dirLink hD
  · intro h1 h2
    rw [buildLinks_eq,
      (List.perm_insertionSort linkLe (candidateList P)).countP_eq,
      candidateList, List.countP_append]
    have hdocs : (((P.docs.map docLink).filter fun l =>
        l.path != Link.path_to_uri P.index.html_path).countP fun l =>
          l.path == Link.path_to_uri D.index.html_path) = 0 := by
      rw [List.countP_eq_zero]
      intro a ha
      obtain ⟨d, hd, rfl⟩ := List.mem_map.mp (List.mem_of_mem_filter ha)
      simpa [docLink] using h1 d hd
    rw [hdocs, childLinks_eq_map, List.countP_map, Nat.zero_add]
    exact h2

/-- C4 (witness): in the concrete test tree, the child directory is
represented in the root listing by its index-titled link (children being the
child's listing) exactly once. -/
theorem c4_index_representation_witness :
    dirLink childDir ∈ buildLinks testRoot ∧
    ((buildLinks testRoot).countP fun l =>
      l.path == Link.path_to_uri childDir.index.html_path) = 1 :=
  ⟨(c4_index_representation childDir testRoot).2.1 (List.Mem.head _),
   (c4_index_representation childDir testRoot).2.2 (by decide) (by decide)⟩

/-- C5: on success, `customize` yields exactly one link per rule, in rule
order: the output has the rules' length and the `i`-th output link carries
the path and title of the candidate matched by the `i`-th rule, so
candidates not referenced by any rule never appear. -/
theorem c5_rule_order (rules : NavRuleList) (defaults out : List Link)
    (h : Navigation.customize rules defaults = .ok out) :
    out.length = rules.toList.length ∧
    ∀ (i : Nat) (r : NavRule), rules.toList[i]? = some r →
      ∃ m l, Navigation.find_matching_link (NavRule.path r) defaults = .ok m ∧
        out[i]? = some l ∧ l.path = m.path ∧ l.title = m.title := by
  obtain ⟨hlen, hget⟩ := Navigation.customize_ok_get rules defaults out h
  refine ⟨hlen, ?_⟩
  intro i r hi
  obtain ⟨l, hl, hcr⟩ := hget i r hi
  obtain ⟨m, hm, hp, ht, -⟩ := Navigation.customizeRule_ok_shape r defaults l hcr
  exact ⟨m, l, hm, hl, hp, ht⟩

/-- C5 (witness): the `manual_menu_simple` rules produce exactly one output
link per rule, in rule order (overriding the natural order), dropping the
unmentioned sibling `Two`. -/
theorem c5_rule_order_witness :
    Navigation.customize
        (.cons (.File ["docs", "one.md"])
          (.cons (.Dir ["docs", "child"] .wildCard) .nil)) defaults0 =
      .ok [⟨"/one", "One", []⟩,
        ⟨"/child", "Nested Root", [⟨"/child/three", "Three", []⟩]⟩] ∧
    ([⟨"/one", "One", []⟩,
      ⟨"/child", "Nested Root", [⟨"/child/three", "Three", []⟩]⟩] :
        List Link).length =
      (NavRuleList.cons (.File ["docs", "one.md"])
        (.cons (.Dir ["docs", "child"] .wildCard) .nil)).toList.length :=
  ⟨rfl,
   (c5_rule_order
     (.cons (.File ["docs", "one.md"])
       (.cons (.Dir ["docs", "child"] .wildCard) .nil))
     defaults0 _ rfl).1⟩

/-- C6: every link in a successful `customize` output is a clone of some
candidate of the in-scope list — same path and title — with its children
kept unchanged, emptied, or themselves a successful `customize` of that
candidate's children; `customize` cannot invent links absent from the
default derivation at the corresponding scope. -/
theorem c6_clone_of_candidate (rules : NavRuleList) (defaults out : List Link)
    (h : Navigation.customize rules defaults = .ok out) :
    ∀ l ∈ out, ∃ c, c ∈ defaults ∧ l.path = c.path ∧ l.title = c.title ∧
      (l.children = c.children ∨ l.children = [] ∨
        ∃ nested, Navigation.customize nested c.children = .ok l.children) := by
  intro l hl
  obtain ⟨r, -, hcr⟩ := Navigation.customize_ok_mem rules defaults out h l hl
  obtain ⟨m, hm, hp, ht, hch⟩ := Navigation.customizeRule_ok_shape r defaults l hcr
  exact ⟨m, (Navigation.find_matching_link_ok hm).1, hp, ht, hch⟩

/-- C6 (witness): the pruned `/child` entry produced by an omitted-include
rule is a clone of a candidate of the default list. -/
theorem c6_clone_of_candidate_witness :
    ∃ c, c ∈ defaults0 ∧
      (Link.mk "/child" "Nested Root" []).path = c.path ∧
      (Link.mk "/child" "Nested Root" []).title = c.title ∧
      ((Link.mk "/child" "Nested Root" []).children = c.children ∨
        (Link.mk "/child" "Nested Root" []).children = [] ∨
        ∃ nested, Navigation.customize nested c.children =
          .ok (Link.mk "/child" "Nested Root" []).children) :=
  c6_clone_of_candidate (.cons (.Dir ["docs", "child"] .none) .nil) defaults0
    [⟨"/child", "Nested Root", []⟩] rfl _ (List.Mem.head _)

/-- C7: a `Dir(path, Explicit(nested))` rule at position `i` contributes, at
position `i` of the output, the matched link with its children replaced by
`customize(nested, matched.children)` — the recursion that lets rules
reorder and prune at arbitrary depth. -/
theorem c7_explicit_recursion (rules : NavRuleList) (defaults out : List Link)
    (i : Nat) (path : List String) (nested : NavRuleList) (m : Link)
    (cs : List Link)
    (hr : rules.toList[i]? = some (.Dir path (.explicit nested)))
    (h : Navigation.customize rules defaults = .ok out)
    (hm : Navigation.find_matching_link path defaults = .ok m)
    (hc : Navigation.customize nested m.children = .ok cs) :
    out[i]? = some ⟨m.path, m.title, cs⟩ := by
  obtain ⟨-, hget⟩ := Navigation.customize_ok_get rules defaults out h
  obtain ⟨l, hl, hcr⟩ := hget i _ hr
  rw [Navigation.customizeRule, hm, Navigation.exceptBind_ok, hc,
    Navigation.exceptBind_ok] at hcr
  cases hcr
  exact hl

/-- C7 (witness): a nested explicit rule keeps only `three` below `/child`. -/
theorem c7_explicit_recursion_witness :
    ([⟨"/child", "Nested Root", [⟨"/child/three", "Three", []⟩]⟩] :
      List Link)[0]? =
      some ⟨"/child", "Nested Root", [⟨"/child/three", "Three", []⟩]⟩ :=
  c7_explicit_recursion
    (.cons (.Dir ["docs", "child"]
      (.explicit (.cons (.File ["docs", "child", "three.md"]) .nil))) .nil)
    defaults0
    [⟨"/child", "Nested Root", [⟨"/child/three", "Three", []⟩]⟩]
    0 ["docs", "child"]
    (.cons (.File ["docs", "child", "three.md"]) .nil)
    ⟨"/child", "Nested Root", [⟨"/child/three", "Three", []⟩]⟩
    [⟨"/child/three", "Three", []⟩]
    rfl rfl rfl rfl

/-- C8: a `Dir(path, WildCard)` rule at position `i` contributes, at
position `i` of the output, the matched link exactly — path, title, and the
entire children subtree unchanged. -/
theorem c8_wildcard_unchanged (rules : NavRuleList) (defaults out : List Link)
    (i : Nat) (path : List String) (m : Link)
    (hr : rules.toList[i]? = some (.Dir path .wildCard))
    (h : Navigation.customize rules defaults = .ok out)
    (hm : Navigation.find_matching_link path defaults = .ok m) :
    out[i]? = some m := by
  obtain ⟨-, hget⟩ := Navigation.customize_ok_get rules defaults out h
  obtain ⟨l, hl, hcr⟩ := hget i _ hr
  rw [Navigation.customizeRule, hm, Navigation.exceptBind_ok] at hcr
  cases hcr
  exact hl

/-- C8 (witness): the wildcard rule reproduces the `/child` link with its
whole subtree. -/
theorem c8_wildcard_unchanged_witness :
    ([⟨"/child", "Nested Root", [⟨"/child/three", "Three", []⟩]⟩] :
      List Link)[0]? =
      some ⟨"/child", "Nested Root", [⟨"/child/three", "Three", []⟩]⟩ :=
  c8_wildcard_unchanged
    (.cons (.Dir ["docs", "child"] .wildCard) .nil) defaults0
    [⟨"/child", "Nested Root", [⟨"/child/three", "Three", []⟩]⟩]
    0 ["docs", "child"]
    ⟨"/child", "Nested Root", [⟨"/child/three", "Three", []⟩]⟩
    rfl rfl rfl

/-- C9: a `Dir(path)` rule with the include rule omitted contributes, at its
position, a link with the matched candidate's path and title but an empty
children list, however many children the candidate had. -/
theorem c9_omitted_empties_children (rules : NavRuleList)
    (defaults out : List Link) (i : Nat) (path : List String) (m : Link)
    (hr : rules.toList[i]? = some (.Dir path .none))
    (h : Navigation.customize rules defaults = .ok out)
    (hm : Navigation.find_matching_link path defaults = .ok m) :
    out[i]? = some ⟨m.path, m.title, []⟩ := by
  obtain ⟨-, hget⟩ := Navigation.customize_ok_get rules defaults out h
  obtain ⟨l, hl, hcr⟩ := hget i _ hr
  rw [Navigation.customizeRule, hm, Navigation.exceptBind_ok] at hcr
  cases hcr
  exact hl

/-- C9 (witness): the omitted-include rule empties the `/child` subtree. -/
theorem c9_omitted_empties_children_witness :
    ([⟨"/child", "Nested Root", []⟩] : List Link)[0]? =
      some ⟨"/child", "Nested Root", []⟩ :=
  c9_omitted_empties_children
    (.cons (.Dir ["docs", "child"] .none) .nil) defaults0
    [⟨"/child", "Nested Root", []⟩]
    0 ["docs", "child"]
    ⟨"/child", "Nested Root", [⟨"/child/three", "Three", []⟩]⟩
    rfl rfl rfl

/-- C10: the default builder is deterministic on equal titles — the sort is
stable over the documents-first-then-subdirectories concatenation, so links
whose titles compare equal keep their concatenation order in the built list;
in particular an equal-titled document link precedes a child-directory
link. -/
theorem c10_stable_tie_break (dir : Directory) (a b : Link)
    (heq : titleLe a.title b.title ∧ titleLe b.title a.title) :
    (List.Sublist [a, b] (candidateList dir) →
      List.Sublist [a, b] (buildLinks dir)) ∧
    (a ∈ (dir.docs.map docLink).filter
        (fun l => l.path != Link.path_to_uri dir.index.html_path) →
      b ∈ childLinks dir.dirs → List.Sublist [a, b] (buildLinks dir)) := by
  constructor
  · intro hsub
    rw [buildLinks_eq]
    exact List.pair_sublist_insertionSort heq.1 hsub
  · intro ha hb
    rw [buildLinks_eq]
    exact List.pair_sublist_insertionSort heq.1
      ((List.singleton_sublist.mpr ha).append (List.singleton_sublist.mpr hb))

/-- C10 (witness): in a tree with an equal-titled document and child
directory, the document link keeps its place before the directory link. -/
theorem c10_stable_tie_break_witness :
    List.Sublist [Link.mk "/a" "Same" [], Link.mk "/c" "Same" []]
      (buildLinks tieRoot) :=
  (c10_stable_tie_break tieRoot (Link.mk "/a" "Same" [])
      (Link.mk "/c" "Same" []) ⟨by decide, by decide⟩).1
    (by rw [show candidateList tieRoot =
        [Link.mk "/a" "Same" [], Link.mk "/c" "Same" []] from rfl])

end Doctave
